import Mathlib

/-
Verification of the background entity manager (BackgroundManager.cpp).

The manager is an actor: all of its state is mutated on a single logical
thread, and asynchronous completions re-enter through queued callbacks.  We
embed it as a pure state machine: the member fields of `BackgroundManager`
become the fields of `BgState`, each member function becomes a function from
`BgState` (plus its arguments) to a new `BgState` together with a list of
observable `Event`s (promise resolutions, outbound requests, database writes).
Promises are identified by natural numbers.

Collaborator subsystems that the spec declares out of scope (the transport,
the file manager, the file-reference manager) are modelled by their narrow
contracts: an outbound request is an `Event`, and the content-addressed view
resolution of the file manager is modelled as the identity on file ids.
A few small pieces of repository code are not under src/ (BackgroundId.h,
BackgroundType.cpp/hpp, DocumentsManager.hpp); definitions for those carry a
doc comment starting with `Modelled from the spec:`.
-/

namespace BackgroundSpec

/-! ### Association-list helpers

`FlatHashMap` fields of the manager are embedded as association lists.
`aset` models `operator[]`-style overwrite, `aemplace` models `emplace`
(which keeps an existing entry), `aerase` models `erase`. -/

def alookup {α β : Type} [DecidableEq α] : List (α × β) → α → Option β
  | [], _ => none
  | (k', v) :: rest, k => if k' = k then some v else alookup rest k

def aset {α β : Type} [DecidableEq α] : List (α × β) → α → β → List (α × β)
  | [], k, v => [(k, v)]
  | (k', v') :: rest, k, v =>
      if k' = k then (k, v) :: rest else (k', v') :: aset rest k v

def aemplace {α β : Type} [DecidableEq α] (l : List (α × β)) (k : α) (v : β) :
    List (α × β) :=
  match alookup l k with
  | some _ => l
  | none => l ++ [(k, v)]

def aerase {α β : Type} [DecidableEq α] (l : List (α × β)) (k : α) :
    List (α × β) :=
  l.filter (fun p => decide (p.1 ≠ k))

/-- `FlatHashSet::insert`. -/
def sinsert {α : Type} [DecidableEq α] (l : List α) (a : α) : List α :=
  if a ∈ l then l else l ++ [a]

theorem alookup_aset_self {α β : Type} [DecidableEq α]
    (l : List (α × β)) (k : α) (v : β) : alookup (aset l k v) k = some v := by
  induction l with
  | nil => simp [aset, alookup]
  | cons hd tl ih =>
    by_cases h : hd.1 = k
    · simp [aset, h, alookup]
    · simpa [aset, h, alookup] using ih

theorem alookup_aset_ne {α β : Type} [DecidableEq α]
    (l : List (α × β)) (k k' : α) (v : β) (h : k ≠ k') :
    alookup (aset l k v) k' = alookup l k' := by
  induction l with
  | nil => simp [aset, alookup, h]
  | cons hd tl ih =>
    by_cases hh : hd.1 = k
    · simp [aset, hh, alookup, h]
    · simp [aset, hh, alookup, ih]

theorem alookup_aerase_ne {α β : Type} [DecidableEq α]
    (l : List (α × β)) (k k' : α) (h : k ≠ k') :
    alookup (aerase l k) k' = alookup l k' := by
  induction l with
  | nil => simp [aerase, alookup]
  | cons hd tl ih =>
    simp only [aerase, List.filter_cons, ne_eq, decide_not] at ih ⊢
    by_cases hh : hd.1 = k
    · simp [hh, alookup, h, ih]
    · by_cases hk : hd.1 = k'
      · simp [hh, hk, alookup, Ne.symm h]
      · simp [hh, hk, alookup, ih]

theorem alookup_aerase_self {α β : Type} [DecidableEq α]
    (l : List (α × β)) (k : α) : alookup (aerase l k) k = none := by
  induction l with
  | nil => simp [aerase, alookup]
  | cons hd tl ih =>
    by_cases hh : hd.1 = k
    · simpa [aerase, alookup, hh] using ih
    · simpa [aerase, alookup, hh] using ih

theorem alookup_mem {α β : Type} [DecidableEq α]
    (l : List (α × β)) (k : α) (v : β) (h : alookup l k = some v) :
    (k, v) ∈ l := by
  induction l with
  | nil => simp [alookup] at h
  | cons hd tl ih =>
    by_cases hh : hd.1 = k
    · simp only [alookup, hh, if_pos] at h
      cases h
      have heq : (k, hd.2) = hd := by rw [← hh]
      rw [heq]
      exact List.mem_cons_self hd tl
    · simp only [alookup, hh, if_neg, not_false_iff] at h
      exact List.mem_cons_of_mem _ (ih h)

/-! ### Identifiers

Modelled from the spec: `BackgroundId` is declared in BackgroundId.h, which is
not under src/.  The spec partitions the 64-bit identifier space into a low
range of locally-allocated identifiers (handed out by the persisted counter)
and a high positive range of remote-assigned identifiers; zero is the absent
("no valid identifier") value. -/

def localIdCeiling : Int := 0x7FFFFFFF

def isValidId (id : Int) : Bool := id ≠ 0

def isLocalId (id : Int) : Bool := id ≠ 0 && id ≤ localIdCeiling

/-! ### Background fills and types -/

/-- A solid or gradient fill; a solid color is a fill whose two colors agree. -/
structure BackgroundFill where
  topColor : Int := 0
  bottomColor : Int := 0
  rotationAngle : Int := 0
deriving DecidableEq

/-- Modelled from the spec: `BackgroundFill::is_dark` is in BackgroundType.cpp,
which is not under src/; modelled as both colors having low brightness. -/
def BackgroundFill.is_dark (f : BackgroundFill) : Bool :=
  f.topColor % 16777216 < 8388608 && f.bottomColor % 16777216 < 8388608

/-- The polymorphic background type: a solid/gradient fill (no file content),
a file-backed pattern over a fill, or a plain file-backed wallpaper. -/
inductive BackgroundType where
  | fill (f : BackgroundFill)
  | pattern (f : BackgroundFill) (intensity : Int) (isMoving : Bool)
  | wallpaper (isBlurred : Bool) (isMoving : Bool)
deriving DecidableEq

/-- A type declares file content exactly when it is not a plain fill. -/
def BackgroundType.has_file : BackgroundType → Bool
  | .fill _ => false
  | .pattern _ _ _ => true
  | .wallpaper _ _ => true

/-- Modelled from the spec: `BackgroundType::has_equal_type` is in
BackgroundType.h, which is not under src/; it compares only the variant of the
two types (fill vs pattern vs wallpaper), ignoring the parameters inside the
variant. -/
def BackgroundType.has_equal_type : BackgroundType → BackgroundType → Bool
  | .fill _, .fill _ => true
  | .pattern _ _ _, .pattern _ _ _ => true
  | .wallpaper _ _, .wallpaper _ _ => true
  | _, _ => false

def hexDigitChar (n : Nat) : Char :=
  if n < 10 then Char.ofNat (48 + n) else Char.ofNat (87 + n)

/-- Six-digit lowercase hexadecimal rendering of a 24-bit color. -/
def colorHex (c : Int) : String :=
  let n := c.toNat % 16777216
  String.mk [hexDigitChar (n / 1048576 % 16), hexDigitChar (n / 65536 % 16),
             hexDigitChar (n / 4096 % 16), hexDigitChar (n / 256 % 16),
             hexDigitChar (n / 16 % 16), hexDigitChar (n % 16)]

/-- Modelled from the spec: `BackgroundType::get_link` is in
BackgroundType.cpp, which is not under src/.  The link of a fill encodes its colors
directly (solid color, or "top-bottom" for a gradient, with an optional
rotation parameter); file-backed types carry their mode parameters. -/
def BackgroundType.get_link : BackgroundType → String
  | .fill f =>
      (if f.topColor = f.bottomColor then colorHex f.topColor
       else colorHex f.topColor ++ "-" ++ colorHex f.bottomColor) ++
      (if f.rotationAngle ≠ 0 ∧ f.topColor ≠ f.bottomColor then
        "?rotation=" ++ toString f.rotationAngle
       else "")
  | .pattern f intensity _ =>
      "intensity=" ++ toString intensity ++ "&bg_color=" ++ colorHex f.topColor
  | .wallpaper isBlurred isMoving =>
      if isBlurred ∧ isMoving then "mode=blur+motion"
      else if isBlurred then "mode=blur"
      else if isMoving then "mode=motion"
      else ""

/-! ### Background names (slugs) -/

/-- Index of the first occurrence of `c` in `s` (`Slice::find`; `none` plays
the role of `npos`). -/
def strFind (s : String) (c : Char) : Option Nat :=
  s.toList.findIdx? (· = c)

/-- The part of the name before its first question mark (the whole name when
there is none). -/
def slugOf (name : String) : String :=
  match strFind name '?' with
  | some i => ⟨name.toList.take i⟩
  | none => name

def isBase64UrlChar (c : Char) : Bool :=
  ('a' ≤ c && c ≤ 'z') || ('A' ≤ c && c ≤ 'Z') || ('0' ≤ c && c ≤ '9') ||
  c = '-' || c = '_'

/-- `is_base64url_characters` from td/utils/base64: every character belongs to
the base64-url alphabet. -/
def is_base64url_characters (s : String) : Bool :=
  s.toList.all isBase64UrlChar

/-- `is_background_name_local`: a name is locally synthesizable when it is
short, has a question-mark delimiter at or before position 13, or its slug is not made
of base64-url characters. -/
def is_background_name_local (name : String) : Bool :=
  name.length ≤ 13 ||
  (match strFind name '?' with
   | some i => i ≤ 13
   | none => false) ||
  !(is_base64url_characters (slugOf name))

/-! ### The entity record -/

structure Background where
  id : Int := 0
  accessHash : Int := 0
  name : String := ""
  isCreator : Bool := false
  isDefault : Bool := false
  isDark : Bool := false
  hasNewLocalId : Bool := true
  fileId : Nat := 0
  type : BackgroundType := .fill {}
deriving DecidableEq

/-! ### Serialization of `Background` (`Background::store` / `Background::parse`)

The tagged binary stream is embedded as a list of typed tokens.  The flag
word packs the five `STORE_FLAG` bits in their source order.  The nested
document encoding (`DocumentsManager::store_document`, not under src/) is
opaque to this manager; it is modelled by the content reference it denotes. -/

inductive StoreTok where
  | flags (n : Nat)
  | int64 (v : Int)
  | str (s : String)
  | doc (fileId : Nat)
  | typeTag (n : Nat)
  | boolTok (b : Bool)
deriving DecidableEq

def packFlags (isCreator isDefault isDark hasFileId hasNewLocalId : Bool) : Nat :=
  (cond isCreator 1 0) + (cond isDefault 2 0) + (cond isDark 4 0) +
  (cond hasFileId 8 0) + (cond hasNewLocalId 16 0)

/-- Modelled from the spec: the `BackgroundType` serializer lives in
BackgroundType.hpp, which is not under src/.  The spec describes it as a
tagged-variant encoding; each variant stores its tag followed by its fields. -/
def storeType : BackgroundType → List StoreTok
  | .fill f => [.typeTag 0, .int64 f.topColor, .int64 f.bottomColor,
                .int64 f.rotationAngle]
  | .pattern f intensity isMoving =>
      [.typeTag 1, .boolTok isMoving, .int64 intensity, .int64 f.topColor,
       .int64 f.bottomColor, .int64 f.rotationAngle]
  | .wallpaper isBlurred isMoving => [.typeTag 2, .boolTok isBlurred, .boolTok isMoving]

/-- Modelled from the spec: decoder matching `storeType`. -/
def parseType : List StoreTok → Option (BackgroundType × List StoreTok)
  | .typeTag 0 :: .int64 t :: .int64 b :: .int64 r :: rest =>
      some (.fill ⟨t, b, r⟩, rest)
  | .typeTag 1 :: .boolTok m :: .int64 i :: .int64 t :: .int64 b :: .int64 r :: rest =>
      some (.pattern ⟨t, b, r⟩ i m, rest)
  | .typeTag 2 :: .boolTok bl :: .boolTok m :: rest =>
      some (.wallpaper bl m, rest)
  | _ => none

/-- `Background::store`: flag word, identifier, access hash, name, the
document when the file reference is present, then the type. -/
def storeBackground (b : Background) : List StoreTok :=
  .flags (packFlags b.isCreator b.isDefault b.isDark (b.fileId ≠ 0) b.hasNewLocalId) ::
  .int64 b.id :: .int64 b.accessHash :: .str b.name ::
  ((if b.fileId ≠ 0 then [.doc b.fileId] else []) ++ storeType b.type)

/-- `Background::parse`: reads the same layout back, `FileId()` (= 0) when the
flag word says no document was stored. -/
def unpackFlags (f : Nat) : Bool × Bool × Bool × Bool × Bool :=
  (f.testBit 0, f.testBit 1, f.testBit 2, f.testBit 3, f.testBit 4)

def parseBackground (toks : List StoreTok) : Option (Background × List StoreTok) :=
  match toks with
  | .flags f :: .int64 id :: .int64 accessHash :: .str name :: rest =>
    let (isCreator, isDefault, isDark, hasFileId, hasNewLocalId) := unpackFlags f
    match (if hasFileId then
             match rest with
             | .doc d :: r => some (d, r)
             | _ => none
           else some (0, rest)) with
    | none => none
    | some (fileId, rest') =>
      match parseType rest' with
      | some (t, rest'') =>
          some ({ id := id, accessHash := accessHash, name := name,
                  isCreator := isCreator, isDefault := isDefault,
                  isDark := isDark, hasNewLocalId := hasNewLocalId,
                  fileId := fileId, type := t }, rest'')
      | none => none
  | _ => none

theorem parseType_storeType (t : BackgroundType) (rest : List StoreTok) :
    parseType (storeType t ++ rest) = some (t, rest) := by
  cases t with
  | fill f => cases f; rfl
  | pattern f i m => cases f; rfl
  | wallpaper bl m => rfl

theorem unpackFlags_packFlags (b0 b1 b2 b3 b4 : Bool) :
    unpackFlags (packFlags b0 b1 b2 b3 b4) = (b0, b1, b2, b3, b4) := by
  cases b0 <;> cases b1 <;> cases b2 <;> cases b3 <;> cases b4 <;> decide

theorem parseBackground_storeBackground (b : Background) (rest : List StoreTok) :
    parseBackground (storeBackground b ++ rest) = some (b, rest) := by
  obtain ⟨id, ah, nm, c, d, dk, hl, fid, ty⟩ := b
  by_cases hf : fid = 0
  · subst hf
    simp only [storeBackground, parseBackground, List.cons_append,
      unpackFlags_packFlags]
    simp [parseType_storeType]
  · simp only [storeBackground, parseBackground, List.cons_append,
      unpackFlags_packFlags]
    simp [hf, parseType_storeType]

/-! ### The manager state

One field per member of `BackgroundManager`, plus the two configuration bits
(`G()->parameters().use_file_db`, `G()->close_flag()`) the code consults.  The
binlog key-value store holds either the allocator counter (stored as a decimal
string in the source; the encoding is injective, so it is modelled by the
integer it denotes) or a serialized selection log event (whose binary encoding
is modelled by the record it encodes, justified by
`parseBackground_storeBackground`). -/

inductive PmcValue where
  | intVal (v : Int)
  | logEvent (background : Background) (setType : BackgroundType)
deriving DecidableEq

/-- Value stored in `being_uploaded_files_` for an in-flight upload. -/
structure UploadedFileInfo where
  type : BackgroundType
  forDarkTheme : Bool
  promiseId : Nat
deriving DecidableEq

structure BgState where
  backgrounds : List (Int × Background) := []
  installedBackgroundIds : List Int := []
  nameToBackgroundId : List (String × Int) := []
  fileIdToBackgroundId : List (Nat × Int) := []
  loadedFromDatabaseBackgrounds : List String := []
  beingLoadedFromDatabaseBackgrounds : List (String × List Nat) := []
  pendingGetBackgroundsQueries : List Nat := []
  beingUploadedFiles : List (Nat × UploadedFileInfo) := []
  setBackgroundIdLight : Int := 0
  setBackgroundIdDark : Int := 0
  setBackgroundTypeLight : BackgroundType := .fill {}
  setBackgroundTypeDark : BackgroundType := .fill {}
  maxLocalBackgroundId : Int := 0
  binlogPmc : List (String × PmcValue) := []
  useFileDb : Bool := false
  closeFlag : Bool := false
deriving DecidableEq

/-- Observable effects: promise resolutions, outbound requests and the
database writes the manager performs. -/
inductive Event where
  | resolveOk (pid : Nat)
  | resolveErr (pid : Nat) (code : Int) (msg : String)
  | catalogRequest
  | remoteGetBackground (slug : String) (pid : Nat)
  | installRequest (backgroundId : Int) (type : BackgroundType) (pid : Nat)
  | dbGet (slug : String)
  | sqlitePut (key : String) (value : List StoreTok)
  | persistSelection (forDarkTheme : Bool)
  | updateSelected (forDarkTheme : Bool)
deriving DecidableEq

def Event.isResolution : Event → Bool
  | .resolveOk _ => true
  | .resolveErr _ _ _ => true
  | _ => false

def Event.isRemoteResolve : Event → Bool
  | .remoteGetBackground _ _ => true
  | _ => false

def Event.isDbGet : Event → Bool
  | .dbGet _ => true
  | _ => false

/-! ### Slot and binlog accessors -/

def getSlotId (s : BgState) (forDarkTheme : Bool) : Int :=
  if forDarkTheme then s.setBackgroundIdDark else s.setBackgroundIdLight

def getSlotType (s : BgState) (forDarkTheme : Bool) : BackgroundType :=
  if forDarkTheme then s.setBackgroundTypeDark else s.setBackgroundTypeLight

def setSlot (s : BgState) (forDarkTheme : Bool) (backgroundId : Int)
    (type : BackgroundType) : BgState :=
  if forDarkTheme then
    { s with setBackgroundIdDark := backgroundId, setBackgroundTypeDark := type }
  else
    { s with setBackgroundIdLight := backgroundId, setBackgroundTypeLight := type }

/-- `to_integer<int64>(binlog_pmc->get(key))`: a missing key reads as the
empty string, which converts to 0. -/
def pmcGetInt (s : BgState) (key : String) : Int :=
  match alookup s.binlogPmc key with
  | some (.intVal v) => v
  | _ => 0

def get_background_database_key (forDarkTheme : Bool) : String :=
  if forDarkTheme then "bgd" else "bg"

/-! ### Identifier allocator -/

/-- `set_max_local_background_id`: record the new high-water mark and persist
it under "max_bg_id" (the source CHECKs that the new value is strictly greater
than the old one and in the local range; every call below satisfies that). -/
def set_max_local_background_id (s : BgState) (backgroundId : Int) : BgState :=
  { s with maxLocalBackgroundId := backgroundId,
           binlogPmc := aset s.binlogPmc "max_bg_id" (.intVal backgroundId) }

/-- `get_next_local_background_id`: bump the persisted counter, then hand the
new value out. -/
def get_next_local_background_id (s : BgState) : Int × BgState :=
  let s' := set_max_local_background_id s (s.maxLocalBackgroundId + 1)
  (s'.maxLocalBackgroundId, s')

/-! ### Registry (`add_background`, `get_background`)

The file-reference bookkeeping (`file_source_id`, `add_file_source`) belongs
to the external reference-tracking subsystem and is not part of the state; the
content-addressed `get_file_view(..).file_id()` resolution of the file manager is
modelled as the identity, so the "background file has changed" comparison
becomes a direct comparison of the two content references. -/

def add_background (s : BgState) (background : Background) : BgState :=
  let cur0 := (alookup s.backgrounds background.id).getD {}
  let cur0 := if cur0.id = 0 then { cur0 with id := background.id } else cur0
  let cur0 := { cur0 with accessHash := background.accessHash,
                          isCreator := background.isCreator,
                          isDefault := background.isDefault,
                          isDark := background.isDark,
                          type := background.type }
  let nameChanged := cur0.name ≠ background.name
  let cur1 := if nameChanged then { cur0 with name := background.name } else cur0
  let nameToId :=
    if nameChanged ∧ ¬ is_background_name_local background.name then
      aemplace s.nameToBackgroundId background.name background.id
    else s.nameToBackgroundId
  let loadedFromDb :=
    if nameChanged ∧ ¬ is_background_name_local background.name then
      s.loadedFromDatabaseBackgrounds.filter (fun n => decide (n ≠ background.name))
    else s.loadedFromDatabaseBackgrounds
  let fileChanged := cur1.fileId ≠ background.fileId
  let cur2 := if fileChanged then { cur1 with fileId := background.fileId } else cur1
  let fileIdToId :=
    if fileChanged then
      aemplace (if cur1.fileId ≠ 0 then aerase s.fileIdToBackgroundId cur1.fileId
                else s.fileIdToBackgroundId) background.fileId background.id
    else s.fileIdToBackgroundId
  { s with backgrounds := aset s.backgrounds background.id cur2,
           nameToBackgroundId := nameToId,
           loadedFromDatabaseBackgrounds := loadedFromDb,
           fileIdToBackgroundId := fileIdToId }

/-- `get_background` is a pure lookup. -/
def get_background (s : BgState) (backgroundId : Int) : Option Background :=
  alookup s.backgrounds backgroundId

/-- `add_fill_background` (full overload): a fill record is synthesized under
a freshly allocated local identifier; its name is the own link of the fill. -/
def add_fill_background_full (s : BgState) (fill : BackgroundFill)
    (isDefault isDark : Bool) : Int × BgState :=
  let (newId, s) := get_next_local_background_id s
  let background : Background :=
    { id := newId, isCreator := true, isDefault := isDefault, isDark := isDark,
      type := .fill fill, name := (BackgroundType.fill fill).get_link }
  (newId, add_background s background)

def add_fill_background (s : BgState) (fill : BackgroundFill) : Int × BgState :=
  add_fill_background_full s fill false fill.is_dark

/-! ### Selection state machine -/

/-- `save_background_id`: persist the slot (the full record plus the resolved
type held by the slot) under "bg"/"bgd", or erase the key when the slot is unset.  The
source CHECKs that a valid slot identifier is present in the registry; a state
violating that is left unchanged. -/
def save_background_id (s : BgState) (forDarkTheme : Bool) : BgState :=
  let key := get_background_database_key forDarkTheme
  let backgroundId := getSlotId s forDarkTheme
  if backgroundId ≠ 0 then
    match alookup s.backgrounds backgroundId with
    | some background =>
        let v : PmcValue := .logEvent background (getSlotType s forDarkTheme)
        { s with binlogPmc := aset s.binlogPmc key v }
    | none => s
  else { s with binlogPmc := aerase s.binlogPmc key }

/-- `set_background_id`: a no-op when the slot already holds exactly this
identifier and type; otherwise update the slot, persist it, and then emit the
"selection changed" notification. -/
def set_background_id (s : BgState) (backgroundId : Int) (type : BackgroundType)
    (forDarkTheme : Bool) : BgState × List Event :=
  if backgroundId = getSlotId s forDarkTheme ∧ getSlotType s forDarkTheme = type then
    (s, [])
  else
    let s := setSlot s forDarkTheme backgroundId type
    let s := save_background_id s forDarkTheme
    (s, [.persistSelection forDarkTheme, .updateSelected forDarkTheme])

/-! ### Fill parsing and parameter overlay (missing-source collaborators) -/

def hexCharVal (c : Char) : Option Nat :=
  if '0' ≤ c ∧ c ≤ '9' then some (c.toNat - 48)
  else if 'a' ≤ c ∧ c ≤ 'f' then some (c.toNat - 87)
  else if 'A' ≤ c ∧ c ≤ 'F' then some (c.toNat - 55)
  else none

def parseHexColor (cs : List Char) : Option Int :=
  if cs.length = 6 then
    (cs.foldl (fun acc c => acc.bind fun a => (hexCharVal c).map fun v => a * 16 + v)
      (some 0)).map Int.ofNat
  else none

/-- Split a character list at every occurrence of `c`. -/
def splitCharList (c : Char) : List Char → List (List Char)
  | [] => [[]]
  | x :: xs =>
      let r := splitCharList c xs
      if x = c then [] :: r
      else
        match r with
        | [] => [[x]]
        | y :: ys => (x :: y) :: ys

/-- Modelled from the spec: `BackgroundFill::get_background_fill` is in
BackgroundType.cpp, which is not under src/.  The spec describes
locally-synthesizable names as encoding a solid or gradient fill directly; a
name that does not encode one is an input-validation error (taxonomy (a)).
Modelled as a six-hex-digit solid color, or two such colors joined by a dash
for a gradient, taken from the part of the name before any question mark. -/
def get_background_fill (name : String) : Except (Int × String) BackgroundFill :=
  let slug := slugOf name
  match (splitCharList '-' slug.toList).map parseHexColor with
  | [some c] => .ok ⟨c, c, 0⟩
  | [some c1, some c2] => .ok ⟨c1, c2, 0⟩
  | _ => .error (400, "Invalid background name")

/-- Modelled from the spec: `BackgroundType::apply_parameters_from_link` is in
BackgroundType.cpp, which is not under src/.  The spec says a cached hit
applies "any URL-style parameter overlay from the input string onto the cached
type"; modelled as overlaying the standard mode parameters onto a file-backed
type. -/
def BackgroundType.apply_parameters_from_link (t : BackgroundType)
    (name : String) : BackgroundType :=
  match strFind name '?' with
  | none => t
  | some i =>
    let params := (name.toList.drop (i + 1))
    let parts := (String.mk params).splitOn "&"
    let blurred := parts.any (fun p => p = "mode=blur" ∨ p = "mode=blur+motion")
    let moving := parts.any (fun p => p = "mode=motion" ∨ p = "mode=blur+motion")
    match t with
    | .wallpaper b m => .wallpaper (b || blurred) (m || moving)
    | .pattern f intensity m => .pattern f intensity (m || moving)
    | .fill f => .fill f

/-! ### Catalog fetch (`get_backgrounds` / `on_get_backgrounds`) -/

/-- Result of the `GetBackgroundsQuery` transport promise. -/
inductive TlWallPaperSettingsLike where
  | mk (isBlurred : Bool) (isMoving : Bool) (color : Int) (secondColor : Int)
       (rotationAngle : Int) (intensity : Int)
deriving DecidableEq

def TlWallPaperSettingsLike.isBlurred : TlWallPaperSettingsLike → Bool
  | .mk b _ _ _ _ _ => b
def TlWallPaperSettingsLike.isMoving : TlWallPaperSettingsLike → Bool
  | .mk _ m _ _ _ _ => m
def TlWallPaperSettingsLike.color : TlWallPaperSettingsLike → Int
  | .mk _ _ c _ _ _ => c
def TlWallPaperSettingsLike.secondColor : TlWallPaperSettingsLike → Int
  | .mk _ _ _ c _ _ => c
def TlWallPaperSettingsLike.rotationAngle : TlWallPaperSettingsLike → Int
  | .mk _ _ _ _ r _ => r
def TlWallPaperSettingsLike.intensity : TlWallPaperSettingsLike → Int
  | .mk _ _ _ _ _ i => i

/-- Modelled from the spec: the `BackgroundType(is_fill, is_pattern, settings)`
constructor is in BackgroundType.cpp, which is not under src/; it builds the
tagged variant from the wire settings. -/
def backgroundTypeFromSettings (isFill isPattern : Bool)
    (settings : Option TlWallPaperSettingsLike) : BackgroundType :=
  let st := settings.getD (.mk false false 0 0 0 0)
  if isFill then .fill ⟨st.color, st.secondColor, st.rotationAngle⟩
  else if isPattern then
    .pattern ⟨st.color, st.secondColor, st.rotationAngle⟩ st.intensity st.isMoving
  else .wallpaper st.isBlurred st.isMoving

/-- The document carried by a `wallPaper`: either `documentEmpty` or a
document whose content the external documents manager resolves to a file
reference (0 when that resolution fails). -/
inductive TlDocument where
  | documentEmpty
  | document (fileId : Nat)
deriving DecidableEq

/-- Wire shape of a wallpaper in a server response. -/
inductive TlWallPaper where
  | wallPaperNoFile (id : Int) (isDefault : Bool) (isDark : Bool)
      (settings : Option TlWallPaperSettingsLike)
  | wallPaper (id : Int) (accessHash : Int) (isCreator : Bool) (isDefault : Bool)
      (isDark : Bool) (isPattern : Bool) (slug : String) (document : TlDocument)
      (settings : Option TlWallPaperSettingsLike)
deriving DecidableEq

/-- `on_get_background`: validate a single remote wallpaper and merge it into
the registry; returns `BackgroundId()` (= 0) and leaves the state untouched on
any validation failure. -/
def on_get_background (s : BgState) (_expectedBackgroundId : Int)
    (expectedBackgroundName : String) (wallpaper : TlWallPaper) :
    BgState × Int × List Event :=
  match wallpaper with
  | .wallPaperNoFile id isDefault isDark settings =>
    match settings with
    | none => (s, 0, [])
    | some st =>
      if !isDefault then (s, 0, [])
      else if !isValidId id || isLocalId id then (s, 0, [])
      else
        let type := backgroundTypeFromSettings true false (some st)
        let background : Background :=
          { id := id, isCreator := false, isDefault := true, isDark := isDark,
            type := type, name := type.get_link }
        (add_background s background, id, [])
  | .wallPaper id accessHash isCreator isDefault isDark isPattern slug document
      settings =>
    if !isValidId id || isLocalId id || is_background_name_local slug then
      (s, 0, [])
    else
      -- an unexpected identifier is only logged, never rejected
      match document with
      | .documentEmpty => (s, 0, [])
      | .document fileId =>
        if fileId = 0 then (s, 0, [])
        else
          let type := backgroundTypeFromSettings false isPattern settings
          let background : Background :=
            { id := id, accessHash := accessHash, name := slug,
              isCreator := isCreator, isDefault := isDefault, isDark := isDark,
              fileId := fileId, type := type }
          let s := add_background s background
          let s := if expectedBackgroundName ≠ "" ∧ slug ≠ expectedBackgroundName
                   then { s with nameToBackgroundId :=
                            aemplace s.nameToBackgroundId expectedBackgroundName id }
                   else s
          if s.useFileDb then
            (s, id, [.sqlitePut ("bgn" ++ slug) (storeBackground background)])
          else (s, id, [])

/-- Outcome of the catalog query: an error, "not modified", or a fresh list. -/
inductive WallPapersResult where
  | error (code : Int) (msg : String)
  | notModified
  | wallPapers (wallpapers : List TlWallPaper)

/-- `get_backgrounds`: queue the caller; only the call that finds the queue
empty issues the remote catalog request. -/
def get_backgrounds (s : BgState) (pid : Nat) : BgState × List Event :=
  ({ s with pendingGetBackgroundsQueries := s.pendingGetBackgroundsQueries ++ [pid] },
   if s.pendingGetBackgroundsQueries = [] then [.catalogRequest] else [])

/-- One iteration of the catalog-response loop: merge one wallpaper and, when
it was valid, append its identifier to the installed-list. -/
def catalogFoldStep (acc : BgState × List Event) (w : TlWallPaper) :
    BgState × List Event :=
  let r := on_get_background acc.1 0 "" w
  let s' := if r.2.1 ≠ 0 then
      { r.1 with installedBackgroundIds := r.1.installedBackgroundIds ++ [r.2.1] }
    else r.1
  (s', acc.2 ++ r.2.2)

/-- `on_get_backgrounds`: take all queued waiters; on error resolve each with
the same error, on "not modified" resolve each successfully without touching
anything else, otherwise atomically rebuild the installed-list from the
response and resolve each successfully. -/
def on_get_backgrounds (s : BgState) (result : WallPapersResult) :
    BgState × List Event :=
  let promises := s.pendingGetBackgroundsQueries
  let s := { s with pendingGetBackgroundsQueries := [] }
  match result with
  | .error code msg => (s, promises.map (fun p => .resolveErr p code msg))
  | .notModified => (s, promises.map Event.resolveOk)
  | .wallPapers wallpapers =>
    let s := { s with installedBackgroundIds := [] }
    let r := wallpapers.foldl catalogFoldStep (s, [])
    (r.1, r.2 ++ promises.map Event.resolveOk)

/-! ### Name resolution (`search_background` / `on_load_background_from_database`) -/

/-- `reload_background_from_server` for a slug lookup: during shutdown the
caller is failed immediately, otherwise a `GetBackgroundQuery` is issued. -/
def reload_background_from_server (s : BgState) (slug : String) (pid : Nat) :
    List Event :=
  if s.closeFlag then [.resolveErr pid 500 "Request aborted"]
  else [.remoteGetBackground slug pid]

/-- `search_background`: cached-name hit first; empty slug is rejected; a
locally-synthesizable slug resolves by fill synthesis; otherwise the durable
by-name cache is consulted (deduplicating concurrent loads of one slug), and
only past that stage is the remote resolve request issued. -/
def search_background (s : BgState) (name : String) (pid : Nat) :
    BgState × (Int × BackgroundType) × List Event :=
  let slug := slugOf name
  match alookup s.nameToBackgroundId slug with
  | some backgroundId =>
    -- the source CHECKs the slug is not local and the registry entry exists
    match alookup s.backgrounds backgroundId with
    | some background =>
        (s, (backgroundId, background.type.apply_parameters_from_link name),
         [.resolveOk pid])
    | none => (s, (0, .fill {}), [])
  | none =>
    if slug = "" then
      (s, (0, .fill {}), [.resolveErr pid 400 "Background name must be non-empty"])
    else if is_background_name_local slug then
      match get_background_fill name with
      | .error (code, msg) => (s, (0, .fill {}), [.resolveErr pid code msg])
      | .ok fill =>
        let (backgroundId, s) := add_fill_background s fill
        (s, (backgroundId, .fill fill), [.resolveOk pid])
    else if s.useFileDb ∧ slug ∉ s.loadedFromDatabaseBackgrounds then
      let queue := (alookup s.beingLoadedFromDatabaseBackgrounds slug).getD []
      let being := aset s.beingLoadedFromDatabaseBackgrounds slug (queue ++ [pid])
      let s := { s with beingLoadedFromDatabaseBackgrounds := being }
      (s, (0, .fill {}), if queue = [] then [.dbGet slug] else [])
    else
      (s, (0, .fill {}), reload_background_from_server s slug pid)

/-- `on_load_background_from_database`: ignored during shutdown; otherwise
take all waiters queued under the slug, mark the slug loaded, merge a valid
cached record (file-backed, valid file and identifier) into the registry, and
resolve every waiter successfully regardless of hit or miss. -/
def on_load_background_from_database (s : BgState) (name : String)
    (value : List StoreTok) : BgState × List Event :=
  if s.closeFlag then (s, [])
  else
    match alookup s.beingLoadedFromDatabaseBackgrounds name with
    | none => (s, [])  -- the source CHECKs a queued load exists
    | some promises =>
      let being := aerase s.beingLoadedFromDatabaseBackgrounds name
      let loaded := sinsert s.loadedFromDatabaseBackgrounds name
      let s := { s with beingLoadedFromDatabaseBackgrounds := being,
                        loadedFromDatabaseBackgrounds := loaded }
      let s :=
        if (alookup s.nameToBackgroundId name).isNone ∧ value ≠ [] then
          match parseBackground value with
          | some (background, []) =>
            if !background.type.has_file || background.fileId = 0 ||
               !isValidId background.id then
              s
            else
              let s := if background.name ≠ name then
                  { s with nameToBackgroundId :=
                      aemplace s.nameToBackgroundId name background.id }
                else s
              add_background s background
          | _ => s
        else s
      (s, promises.map Event.resolveOk)

/-! ### Installing a background (`set_background` by identifier) -/

/-- `set_background(BackgroundId, BackgroundType, bool, Promise)`: the
identifier must be known; a file-backed requested type is rejected as
"Background type mismatch" when the stored type has the same variant; setting
the already-current pair succeeds immediately; a non-file type is applied
locally; otherwise the install request is sent.  Returns the identifier the
source returns along with the emitted events. -/
def set_background (s : BgState) (backgroundId : Int) (type : BackgroundType)
    (forDarkTheme : Bool) (pid : Nat) : BgState × Int × List Event :=
  match alookup s.backgrounds backgroundId with
  | none => (s, 0, [.resolveErr pid 400 "Background to set not found"])
  | some background =>
    let step (type : BackgroundType) : BgState × Int × List Event :=
      if getSlotId s forDarkTheme = backgroundId ∧
         getSlotType s forDarkTheme = type then
        (s, backgroundId, [.resolveOk pid])
      else if !type.has_file then
        let (s, evs) := set_background_id s backgroundId type forDarkTheme
        (s, backgroundId, evs ++ [.resolveOk pid])
      else
        (s, 0, [.installRequest backgroundId type pid])
    if !type.has_file then step background.type
    else if background.type.has_equal_type type then
      (s, 0, [.resolveErr pid 400 "Background type mismatch"])
    else step type

/-! ### Upload pipeline completion callbacks -/

/-- `on_upload_background_file`: the pending record must exist; it is read
once, removed unconditionally, and its contents are handed to
`do_upload_background_file` (returned here). -/
def on_upload_background_file (s : BgState) (fileId : Nat) :
    BgState × Option UploadedFileInfo :=
  match alookup s.beingUploadedFiles fileId with
  | none => (s, none)  -- the source CHECKs the record exists
  | some info =>
      ({ s with beingUploadedFiles := aerase s.beingUploadedFiles fileId },
       some info)

/-- `on_upload_background_file_error`: during shutdown the failure is
swallowed entirely (the record is not even consulted); otherwise the record is
removed and its promise failed with the reported error (code 500 when the
transport supplied no positive code). -/
def on_upload_background_file_error (s : BgState) (fileId : Nat) (code : Int)
    (msg : String) : BgState × List Event :=
  if s.closeFlag then (s, [])
  else
    match alookup s.beingUploadedFiles fileId with
    | none => (s, [])  -- the source CHECKs the record exists
    | some info =>
        ({ s with beingUploadedFiles := aerase s.beingUploadedFiles fileId },
         [.resolveErr info.promiseId (if code > 0 then code else 500) msg])

/-! ### Startup (`start_up`) and restart traces -/

/-- The selection log event stored under "bg"/"bgd", if present and parsable
(`log_event_parse(..).ensure()` aborts on a malformed value, so a non-record
value reads as absent here). -/
def readSlotRecord (s : BgState) (forDarkTheme : Bool) :
    Option (Background × BackgroundType) :=
  match alookup s.binlogPmc (get_background_database_key forDarkTheme) with
  | some (.logEvent background setType) => some (background, setType)
  | _ => none

/-- First startup loop: raise the allocator counter past any locally
allocated, non-file-backed identifier found in a stored selection record. -/
def startUpFixMax (s : BgState)
    (record : Option (Background × BackgroundType)) : BgState :=
  match record with
  | some (background, _) =>
      if background.hasNewLocalId ∧ isLocalId background.id ∧
         ¬ background.type.has_file ∧
         background.id > s.maxLocalBackgroundId then
        set_max_local_background_id s background.id
      else s
  | none => s

/-- Second startup loop, for one theme variant: relabel an old-format
non-file-backed record under a fresh local identifier, reject a record whose
file reference disagrees with its type (clearing and re-persisting the slot),
otherwise install the record into the slot and the registry; finally emit the
startup "selection changed" update.  Returns any identifiers allocated. -/
def startUpInstallSlot (s : BgState) (forDarkTheme : Bool)
    (record : Option (Background × BackgroundType)) :
    BgState × List Int × List Event :=
  match record with
  | none => (s, [], [.updateSelected forDarkTheme])
  | some (background, setType) =>
    let relabel := !background.hasNewLocalId && !background.type.has_file
    let background1 := if relabel then
        { background with hasNewLocalId := true,
                          id := (get_next_local_background_id s).1 }
      else background
    let s1 := if relabel then (get_next_local_background_id s).2 else s
    let allocated := if relabel then [(get_next_local_background_id s).1] else []
    let mismatch := (decide (background1.fileId ≠ 0)) != background1.type.has_file
    let s2 := if mismatch then s1
      else add_background (setSlot s1 forDarkTheme background1.id setType) background1
    let s3 := if relabel || mismatch then save_background_id s2 forDarkTheme else s2
    (s3, allocated, [.updateSelected forDarkTheme])

/-- `start_up`: reload the persisted counter, scan both stored selection
records to fix it, then install both records. -/
def start_up (s : BgState) : BgState × List Int × List Event :=
  let s0 := { s with maxLocalBackgroundId := pmcGetInt s "max_bg_id" }
  let recLight := readSlotRecord s0 false
  let recDark := readSlotRecord s0 true
  let sFixed := startUpFixMax (startUpFixMax s0 recLight) recDark
  let r1 := startUpInstallSlot sFixed false recLight
  let r2 := startUpInstallSlot r1.1 true recDark
  (r2.1, r1.2.1 ++ r2.2.1, r1.2.2 ++ r2.2.2)

/-- A restart keeps only what survives the process: the durable key-value
store and the environment configuration; all in-memory state is rebuilt by
`start_up`. -/
def restartState (s : BgState) : BgState :=
  { binlogPmc := s.binlogPmc, useFileDb := s.useFileDb, closeFlag := s.closeFlag }

/-- Allocator trace step: either a `get_next_local_background_id` call or a
restart (persist, reload, and run `start_up`). -/
inductive AllocOp where
  | alloc
  | restart

def runAllocOp (s : BgState) : AllocOp → BgState × List Int
  | .alloc =>
      ((get_next_local_background_id s).2, [(get_next_local_background_id s).1])
  | .restart =>
      ((start_up (restartState s)).1, (start_up (restartState s)).2.1)

def runAllocOps : BgState → List AllocOp → BgState × List Int
  | s, [] => (s, [])
  | s, op :: ops =>
      ((runAllocOps (runAllocOp s op).1 ops).1,
       (runAllocOp s op).2 ++ (runAllocOps (runAllocOp s op).1 ops).2)

/-! ### Frame lemmas -/

theorem add_background_frame (s : BgState) (b : Background) :
    (add_background s b).installedBackgroundIds = s.installedBackgroundIds ∧
    (add_background s b).pendingGetBackgroundsQueries = s.pendingGetBackgroundsQueries ∧
    (add_background s b).beingLoadedFromDatabaseBackgrounds = s.beingLoadedFromDatabaseBackgrounds ∧
    (add_background s b).beingUploadedFiles = s.beingUploadedFiles ∧
    (add_background s b).setBackgroundIdLight = s.setBackgroundIdLight ∧
    (add_background s b).setBackgroundIdDark = s.setBackgroundIdDark ∧
    (add_background s b).setBackgroundTypeLight = s.setBackgroundTypeLight ∧
    (add_background s b).setBackgroundTypeDark = s.setBackgroundTypeDark ∧
    (add_background s b).maxLocalBackgroundId = s.maxLocalBackgroundId ∧
    (add_background s b).binlogPmc = s.binlogPmc ∧
    (add_background s b).useFileDb = s.useFileDb ∧
    (add_background s b).closeFlag = s.closeFlag :=
  ⟨rfl, rfl, rfl, rfl, rfl, rfl, rfl, rfl, rfl, rfl, rfl, rfl⟩

theorem on_get_background_pending (s : BgState) (eid : Int) (en : String)
    (w : TlWallPaper) :
    (on_get_background s eid en w).1.pendingGetBackgroundsQueries
      = s.pendingGetBackgroundsQueries := by
  rcases w with ⟨id, isDef, dk, settings⟩ | ⟨id, ah, c, d, dk, p, slug, doc, st⟩
  · cases settings
    · rfl
    · simp only [on_get_background]
      split_ifs <;> rfl
  · cases doc with
    | documentEmpty =>
      simp only [on_get_background]
      split_ifs <;> rfl
    | document fid =>
      simp only [on_get_background]
      split_ifs <;> rfl

theorem on_get_background_events (s : BgState) (eid : Int) (en : String)
    (w : TlWallPaper) :
    ∀ e ∈ (on_get_background s eid en w).2.2, e.isResolution = false := by
  rcases w with ⟨id, isDef, dk, settings⟩ | ⟨id, ah, c, d, dk, p, slug, doc, st⟩
  · cases settings
    · intro e he; simp [on_get_background] at he
    · simp only [on_get_background]
      split_ifs <;> intro e he <;> simp at he
  · cases doc with
    | documentEmpty =>
      simp only [on_get_background]
      split_ifs <;> intro e he <;> simp at he
    | document fid =>
      simp only [on_get_background]
      split_ifs <;> intro e he <;>
        simp only [List.mem_singleton, List.not_mem_nil] at he <;>
        try simp [he, Event.isResolution]

/-- The outcome every queued catalog waiter receives for a given response. -/
def catalogOutcome (result : WallPapersResult) (pid : Nat) : Event :=
  match result with
  | .error code msg => .resolveErr pid code msg
  | _ => .resolveOk pid

theorem catalogFold_frame (l : List TlWallPaper) (acc : BgState × List Event)
    (he : ∀ e ∈ acc.2, e.isResolution = false) :
    (List.foldl catalogFoldStep acc l).1.pendingGetBackgroundsQueries
        = acc.1.pendingGetBackgroundsQueries ∧
    ∀ e ∈ (List.foldl catalogFoldStep acc l).2, e.isResolution = false := by
  induction l generalizing acc with
  | nil => exact ⟨rfl, he⟩
  | cons w rest ih =>
    have h1 := on_get_background_pending acc.1 0 "" w
    have h2 := on_get_background_events acc.1 0 "" w
    have hstep_p : (catalogFoldStep acc w).1.pendingGetBackgroundsQueries
        = acc.1.pendingGetBackgroundsQueries := by
      dsimp only [catalogFoldStep]
      split_ifs <;> simpa using h1
    have hstep_e : ∀ e ∈ (catalogFoldStep acc w).2, e.isResolution = false := by
      intro e hmem
      dsimp only [catalogFoldStep] at hmem
      simp only [List.mem_append] at hmem
      rcases hmem with hmem | hmem
      · exact he e hmem
      · exact h2 e hmem
    have := ih (catalogFoldStep acc w) hstep_e
    exact ⟨this.1.trans hstep_p, this.2⟩

/-- C1: a `get_backgrounds` call only issues the remote catalog request when
the waiter queue was empty (so at most one request is ever outstanding);
`on_get_backgrounds` empties the queue, and every waiter queued before the
resolution receives the same outcome — all succeed, or all get the same
error. -/
theorem c1_catalog_request_deduplication (s : BgState) (pid : Nat)
    (r : WallPapersResult) :
    get_backgrounds s pid
      = ({ s with pendingGetBackgroundsQueries :=
             s.pendingGetBackgroundsQueries ++ [pid] },
         if s.pendingGetBackgroundsQueries = [] then [.catalogRequest] else []) ∧
    (on_get_backgrounds s r).1.pendingGetBackgroundsQueries = [] ∧
    List.filter Event.isResolution (on_get_backgrounds s r).2
      = s.pendingGetBackgroundsQueries.map (catalogOutcome r) := by
  refine ⟨rfl, ?_, ?_⟩
  · cases r with
    | error code msg => rfl
    | notModified => rfl
    | wallPapers l =>
      simp only [on_get_backgrounds]
      exact (catalogFold_frame l _ (by intro e he; simp at he)).1
  · have hmap : ∀ (g : Nat → Event), (∀ a, (g a).isResolution = true) →
        ∀ l : List Nat, List.filter Event.isResolution (l.map g) = l.map g := by
      intro g hg l
      induction l with
      | nil => rfl
      | cons a tl ih => simp [List.filter_cons, hg a, ih]
    cases r with
    | error code msg =>
      simp only [on_get_backgrounds]
      rw [hmap (fun p => Event.resolveErr p code msg) (fun a => rfl)]
      rfl
    | notModified =>
      simp only [on_get_backgrounds]
      rw [hmap Event.resolveOk (fun a => rfl)]
      rfl
    | wallPapers l =>
      simp only [on_get_backgrounds, List.filter_append]
      have hfold := catalogFold_frame l
        ({ s with pendingGetBackgroundsQueries := [], installedBackgroundIds := [] }, [])
        (by intro e he; simp at he)
      rw [List.filter_eq_nil_iff.mpr (by intro e he; simp [hfold.2 e he]),
          hmap Event.resolveOk (fun a => rfl)]
      simp only [List.nil_append]
      rfl

/-- C3: a "not modified" catalog response leaves the installed-list and the
entity registry exactly as they were and resolves every waiter successfully;
an error response likewise leaves the installed-list (and registry) untouched
and fails every waiter with that same error. -/
theorem c3_not_modified_preserves_state (s : BgState) (code : Int) (msg : String) :
    on_get_backgrounds s .notModified
      = ({ s with pendingGetBackgroundsQueries := [] },
         s.pendingGetBackgroundsQueries.map Event.resolveOk) ∧
    (on_get_backgrounds s .notModified).1.installedBackgroundIds
      = s.installedBackgroundIds ∧
    (on_get_backgrounds s .notModified).1.backgrounds = s.backgrounds ∧
    (on_get_backgrounds s (.error code msg)).1.installedBackgroundIds
      = s.installedBackgroundIds ∧
    (on_get_backgrounds s (.error code msg)).1.backgrounds = s.backgrounds ∧
    (on_get_backgrounds s (.error code msg)).2
      = s.pendingGetBackgroundsQueries.map (fun p => Event.resolveErr p code msg) :=
  ⟨rfl, rfl, rfl, rfl, rfl, rfl⟩

/-- C5: for every record whose file reference is present exactly when its type
declares file content, encoding with `Background::store` and decoding with
`Background::parse` reproduces an equal record — identifier, access hash,
name, flags, file-reference presence and type all included — whatever the
type variant. -/
theorem c5_background_store_parse_roundtrip (b : Background)
    (rest : List StoreTok) (_hinv : b.fileId ≠ 0 ↔ b.type.has_file = true) :
    parseBackground (storeBackground b ++ rest) = some (b, rest) :=
  parseBackground_storeBackground b rest

theorem c5_background_store_parse_roundtrip_witness :
    (({ id := 41, name := "ff0000", isCreator := true, type := .fill ⟨255, 0, 0⟩} :
        Background).fileId ≠ 0 ↔
      (BackgroundType.fill ⟨255, 0, 0⟩).has_file = true) ∧
    parseBackground (storeBackground
        { id := 41, name := "ff0000", isCreator := true, type := .fill ⟨255, 0, 0⟩ } ++ [])
      = some ({ id := 41, name := "ff0000", isCreator := true,
                type := .fill ⟨255, 0, 0⟩ }, []) ∧
    parseBackground (storeBackground
        { id := 99, accessHash := 7, name := "abcdefghijKLMN", isDark := true,
          fileId := 5, type := .pattern ⟨1, 2, 3⟩ 40 true } ++ [])
      = some ({ id := 99, accessHash := 7, name := "abcdefghijKLMN",
                isDark := true, fileId := 5, type := .pattern ⟨1, 2, 3⟩ 40 true }, []) ∧
    parseBackground (storeBackground
        { id := 1000001, accessHash := -3, name := "abcdefghijKLMNop",
          isDefault := true, fileId := 9, type := .wallpaper true false } ++ [])
      = some ({ id := 1000001, accessHash := -3, name := "abcdefghijKLMNop",
                isDefault := true, fileId := 9, type := .wallpaper true false }, []) :=
  ⟨by decide,
   c5_background_store_parse_roundtrip _ [] (by decide),
   c5_background_store_parse_roundtrip _ [] (by decide),
   c5_background_store_parse_roundtrip _ [] (by decide)⟩

theorem save_background_id_slots (s : BgState) (forDarkTheme d : Bool) :
    getSlotId (save_background_id s forDarkTheme) d = getSlotId s d ∧
    getSlotType (save_background_id s forDarkTheme) d = getSlotType s d := by
  dsimp only [save_background_id]
  split_ifs
  · cases halt : alookup s.backgrounds (getSlotId s forDarkTheme) <;>
      simp [halt, getSlotId, getSlotType]
  · exact ⟨rfl, rfl⟩

theorem getSlot_setSlot (s : BgState) (forDarkTheme : Bool) (backgroundId : Int)
    (type : BackgroundType) :
    getSlotId (setSlot s forDarkTheme backgroundId type) forDarkTheme = backgroundId ∧
    getSlotType (setSlot s forDarkTheme backgroundId type) forDarkTheme = type := by
  cases forDarkTheme <;> simp [setSlot, getSlotId, getSlotType]

/-- C4: `set_background_id` is a no-op (no persistence write, no
notification) exactly when the slot already holds this identifier and type;
a call that does change the slot emits the persistence write strictly before
the change notification, and a second identical call right after it is a
no-op — so two consecutive identical calls persist exactly once and notify
exactly once. -/
theorem c4_set_selection_idempotent (s : BgState) (backgroundId : Int)
    (type : BackgroundType) (forDarkTheme : Bool) :
    (backgroundId = getSlotId s forDarkTheme ∧ getSlotType s forDarkTheme = type →
      set_background_id s backgroundId type forDarkTheme = (s, [])) ∧
    (¬ (backgroundId = getSlotId s forDarkTheme ∧ getSlotType s forDarkTheme = type) →
      (set_background_id s backgroundId type forDarkTheme).2
        = [.persistSelection forDarkTheme, .updateSelected forDarkTheme] ∧
      set_background_id (set_background_id s backgroundId type forDarkTheme).1
          backgroundId type forDarkTheme
        = ((set_background_id s backgroundId type forDarkTheme).1, []) ∧
      ((set_background_id s backgroundId type forDarkTheme).2 ++
         (set_background_id (set_background_id s backgroundId type forDarkTheme).1
           backgroundId type forDarkTheme).2).count (.persistSelection forDarkTheme) = 1 ∧
      ((set_background_id s backgroundId type forDarkTheme).2 ++
         (set_background_id (set_background_id s backgroundId type forDarkTheme).1
           backgroundId type forDarkTheme).2).count (.updateSelected forDarkTheme) = 1) := by
  constructor
  · intro h
    simp [set_background_id, h]
  · intro h
    have h1 : (set_background_id s backgroundId type forDarkTheme).1
        = save_background_id (setSlot s forDarkTheme backgroundId type) forDarkTheme := by
      simp [set_background_id, h]
    have h2 : (set_background_id s backgroundId type forDarkTheme).2
        = [.persistSelection forDarkTheme, .updateSelected forDarkTheme] := by
      simp [set_background_id, h]
    have hslot :
        getSlotId (set_background_id s backgroundId type forDarkTheme).1 forDarkTheme
            = backgroundId ∧
        getSlotType (set_background_id s backgroundId type forDarkTheme).1 forDarkTheme
            = type := by
      rw [h1]
      have hs := save_background_id_slots (setSlot s forDarkTheme backgroundId type)
        forDarkTheme forDarkTheme
      have hset := getSlot_setSlot s forDarkTheme backgroundId type
      exact ⟨hs.1.trans hset.1, hs.2.trans hset.2⟩
    have hnoop : set_background_id (set_background_id s backgroundId type forDarkTheme).1
        backgroundId type forDarkTheme
        = ((set_background_id s backgroundId type forDarkTheme).1, []) := by
      generalize hX : (set_background_id s backgroundId type forDarkTheme).1 = X at hslot ⊢
      simp [set_background_id, hslot.1, hslot.2]
    refine ⟨h2, hnoop, ?_, ?_⟩ <;>
      rw [h2, hnoop] <;> simp [List.count_cons, List.count_nil]

/-- C9: when the upload subsystem reports success or failure for a requested
file, the in-flight record is read exactly once and removed unconditionally
at that point (the returned data is what flows on to the install path); a
failure arriving during shutdown is suppressed entirely — no error surfaced
and the state untouched. -/
theorem c9_upload_record_lifecycle (s : BgState) (fileId : Nat)
    (info : UploadedFileInfo) (code : Int) (msg : String)
    (h : alookup s.beingUploadedFiles fileId = some info) :
    on_upload_background_file s fileId
      = ({ s with beingUploadedFiles := aerase s.beingUploadedFiles fileId },
         some info) ∧
    alookup (on_upload_background_file s fileId).1.beingUploadedFiles fileId = none ∧
    (s.closeFlag = false →
      on_upload_background_file_error s fileId code msg
        = ({ s with beingUploadedFiles := aerase s.beingUploadedFiles fileId },
           [.resolveErr info.promiseId (if code > 0 then code else 500) msg])) ∧
    (s.closeFlag = true →
      on_upload_background_file_error s fileId code msg = (s, [])) := by
  refine ⟨?_, ?_, ?_, ?_⟩
  · simp [on_upload_background_file, h]
  · simp [on_upload_background_file, h, alookup_aerase_self]
  · intro hc
    simp [on_upload_background_file_error, hc, h]
  · intro hc
    simp [on_upload_background_file_error, hc]

theorem c9_upload_record_lifecycle_witness :
    alookup (BgState.mk [] [] [] [] [] [] [] [(3, ⟨.wallpaper false false, true, 8⟩)]
        0 0 (.fill {}) (.fill {}) 0 [] false false).beingUploadedFiles 3
      = some ⟨.wallpaper false false, true, 8⟩ ∧
    on_upload_background_file
        (BgState.mk [] [] [] [] [] [] [] [(3, ⟨.wallpaper false false, true, 8⟩)]
          0 0 (.fill {}) (.fill {}) 0 [] false false) 3
      = (BgState.mk [] [] [] [] [] [] [] [] 0 0 (.fill {}) (.fill {}) 0 [] false false,
         some ⟨.wallpaper false false, true, 8⟩) :=
  ⟨by decide,
   by
    have h := c9_upload_record_lifecycle
      (BgState.mk [] [] [] [] [] [] [] [(3, ⟨.wallpaper false false, true, 8⟩)]
        0 0 (.fill {}) (.fill {}) 0 [] false false) 3
      ⟨.wallpaper false false, true, 8⟩ 0 "" (by decide)
    exact h.1.trans (by decide)⟩

/-- C10: with the identifier present in the registry and a file-backed
requested type, `set_background` fails synchronously with "Background type
mismatch" exactly when the type of the stored record has the same variant as the
requested one (`has_equal_type`); otherwise it either succeeds immediately
(slot already current) or issues the install request. -/
theorem c10_set_background_type_mismatch (s : BgState) (backgroundId : Int)
    (type : BackgroundType) (forDarkTheme : Bool) (pid : Nat)
    (background : Background)
    (hreg : alookup s.backgrounds backgroundId = some background)
    (hfile : type.has_file = true) :
    ((set_background s backgroundId type forDarkTheme pid).2.2
        = [.resolveErr pid 400 "Background type mismatch"]
      ↔ background.type.has_equal_type type = true) ∧
    (background.type.has_equal_type type = false →
      (getSlotId s forDarkTheme = backgroundId ∧ getSlotType s forDarkTheme = type →
        set_background s backgroundId type forDarkTheme pid
          = (s, backgroundId, [.resolveOk pid])) ∧
      (¬ (getSlotId s forDarkTheme = backgroundId ∧
            getSlotType s forDarkTheme = type) →
        set_background s backgroundId type forDarkTheme pid
          = (s, 0, [.installRequest backgroundId type pid]))) := by
  cases hq : background.type.has_equal_type type
  · have hmain : set_background s backgroundId type forDarkTheme pid
        = if getSlotId s forDarkTheme = backgroundId ∧
             getSlotType s forDarkTheme = type
          then (s, backgroundId, [.resolveOk pid])
          else (s, 0, [.installRequest backgroundId type pid]) := by
      simp [set_background, hreg, hfile, hq]
    constructor
    · constructor
      · intro hev
        exfalso
        rw [hmain] at hev
        split_ifs at hev <;> simp at hev
      · intro hcontra
        exact absurd hcontra (by decide)
    · intro _
      exact ⟨fun hc => by rw [hmain, if_pos hc],
             fun hc => by rw [hmain, if_neg hc]⟩
  · have hmain : set_background s backgroundId type forDarkTheme pid
        = (s, 0, [.resolveErr pid 400 "Background type mismatch"]) := by
      simp [set_background, hreg, hfile, hq]
    refine ⟨⟨fun _ => rfl, fun _ => by rw [hmain]⟩, fun hcontra => ?_⟩
    exact absurd hcontra (by decide)

def mismatchWitnessBackground : Background :=
  { id := 5, name := "abcdefghijKLMN", fileId := 4, type := .fill ⟨1, 1, 0⟩ }

def mismatchWitnessState : BgState :=
  { backgrounds := [(5, mismatchWitnessBackground)] }

theorem c10_set_background_type_mismatch_witness :
    alookup mismatchWitnessState.backgrounds 5 = some mismatchWitnessBackground ∧
    (BackgroundType.wallpaper false false).has_file = true ∧
    set_background mismatchWitnessState 5 (.wallpaper false false) false 3
      = (mismatchWitnessState, 0, [.installRequest 5 (.wallpaper false false) 3]) := by
  refine ⟨by decide, by decide, ?_⟩
  have h := c10_set_background_type_mismatch mismatchWitnessState 5
    (.wallpaper false false) false 3 mismatchWitnessBackground
    (by decide) (by decide)
  exact (h.2 (by decide)).2 (by decide)

/-- The violations claim C6 enumerates, read off the wire value. -/
def violatesValidation : TlWallPaper → Prop
  | .wallPaperNoFile id isDefault _ settings =>
      settings = none ∨ isDefault = false ∨ isValidId id = false ∨
      isLocalId id = true
  | .wallPaper id _ _ _ _ _ slug document _ =>
      isValidId id = false ∨ isLocalId id = true ∨
      is_background_name_local slug = true ∨
      document = .documentEmpty ∨ document = .document 0

/-- C6: a remote wallpaper that violates validation — a non-server
identifier, a locally-synthesizable or empty slug on a file-backed wallpaper,
a non-default or settings-less `wallPaperNoFile`, or a missing/empty document
— is discarded whole: the registry (indeed the entire state) is unchanged and
the invalid identifier 0 is returned. -/
theorem c6_invalid_remote_background_rejected (s : BgState) (expectedId : Int)
    (expectedName : String) (w : TlWallPaper) (h : violatesValidation w) :
    on_get_background s expectedId expectedName w = (s, 0, []) := by
  rcases w with ⟨id, isDef, dk, settings⟩ | ⟨id, ah, c, d, dk, p, slug, doc, st⟩
  · cases settings with
    | none => rfl
    | some st =>
      rcases h with h | h | h | h
      · exact absurd h (by simp)
      · simp [on_get_background, h]
      · cases hd : isDef <;> simp [on_get_background, hd, h]
      · cases hd : isDef <;> simp [on_get_background, hd, h]
  · rcases h with h | h | h | h | h
    · simp [on_get_background, h]
    · simp [on_get_background, h]
    · simp [on_get_background, h]
    · subst h
      simp only [on_get_background]
      split_ifs <;> rfl
    · subst h
      simp only [on_get_background]
      split_ifs <;> rfl

theorem c6_invalid_remote_background_rejected_witness :
    violatesValidation (.wallPaperNoFile 10 true true none) ∧
    on_get_background (BgState.mk [] [] [] [] [] [] [] []
        0 0 (.fill {}) (.fill {}) 0 [] true false) 0 ""
        (.wallPaperNoFile 10 true true none)
      = (BgState.mk [] [] [] [] [] [] [] []
          0 0 (.fill {}) (.fill {}) 0 [] true false, 0, []) :=
  ⟨Or.inl rfl,
   c6_invalid_remote_background_rejected _ 0 "" _ (Or.inl rfl)⟩

/-- C7 counterexample: the slug of the empty name is shorter than 13 characters,
yet `search_background` resolves it with a local validation error — no
fill-type record is synthesized and no local identifier is allocated (the
state, allocator included, is unchanged). -/
theorem c7_counterexample :
    is_background_name_local "" = true ∧
    search_background (BgState.mk [] [] [] [] [] [] [] []
        0 0 (.fill {}) (.fill {}) 0 [] true false) "" 7
      = (BgState.mk [] [] [] [] [] [] [] []
           0 0 (.fill {}) (.fill {}) 0 [] true false,
         (0, .fill {}),
         [.resolveErr 7 400 "Background name must be non-empty"]) := by
  constructor
  · decide
  · rfl

/-- C7 (amended): for every name whose slug is locally synthesizable (short,
early question mark, or non-base64url), `search_background` issues no remote resolve
request and no durable by-name cache lookup, and resolves locally: a
non-empty slug takes the fill-synthesis path — yielding a fill-type record
under a fresh local identifier (the next allocator value) exactly when the
name parses as a fill description, and the validation error of that parser
otherwise — while an empty slug fails locally with "Background name must be
non-empty". -/
theorem c7_local_slug_resolves_locally (s : BgState) (name : String) (pid : Nat)
    (hinv : ∀ p ∈ s.nameToBackgroundId, is_background_name_local p.1 = false)
    (hloc : is_background_name_local (slugOf name) = true) :
    (∀ e ∈ (search_background s name pid).2.2,
        e.isRemoteResolve = false ∧ e.isDbGet = false) ∧
    (slugOf name = "" →
      search_background s name pid
        = (s, (0, .fill {}),
           [.resolveErr pid 400 "Background name must be non-empty"])) ∧
    (slugOf name ≠ "" →
      (∀ fill, get_background_fill name = .ok fill →
        search_background s name pid
          = ((add_fill_background s fill).2,
             ((add_fill_background s fill).1, .fill fill), [.resolveOk pid]) ∧
        (add_fill_background s fill).1 = s.maxLocalBackgroundId + 1) ∧
      (∀ code msg, get_background_fill name = .error (code, msg) →
        search_background s name pid
          = (s, (0, .fill {}), [.resolveErr pid code msg]))) := by
  have hlookup : alookup s.nameToBackgroundId (slugOf name) = none := by
    cases hl : alookup s.nameToBackgroundId (slugOf name) with
    | none => rfl
    | some v =>
      have hmem := alookup_mem _ _ _ hl
      have hfalse := hinv _ hmem
      simp only at hfalse
      rw [hloc] at hfalse
      exact absurd hfalse (by decide)
  have hfresh : ∀ fill, (add_fill_background s fill).1
      = s.maxLocalBackgroundId + 1 := fun fill => rfl
  by_cases hslug : slugOf name = ""
  · have hlk : alookup s.nameToBackgroundId "" = none := by
      rw [← hslug]
      exact hlookup
    have hres : search_background s name pid
        = (s, (0, .fill {}),
           [.resolveErr pid 400 "Background name must be non-empty"]) := by
      simp [search_background, hslug, hlk]
    refine ⟨?_, fun _ => hres, fun hne => absurd hslug hne⟩
    intro e he
    rw [hres] at he
    simp at he
    simp [he, Event.isRemoteResolve, Event.isDbGet]
  · have hmain : search_background s name pid
        = (match get_background_fill name with
           | .error (code, msg) => (s, (0, .fill {}), [.resolveErr pid code msg])
           | .ok fill => ((add_fill_background s fill).2,
               ((add_fill_background s fill).1, .fill fill), [.resolveOk pid])) := by
      simp only [search_background, hlookup]
      rw [if_neg hslug, if_pos (by rw [hloc])]
    refine ⟨?_, fun hc => absurd hc hslug, fun _ => ⟨?_, ?_⟩⟩
    · intro e he
      rw [hmain] at he
      cases hf : get_background_fill name with
      | error e2 =>
        rcases e2 with ⟨code, msg⟩
        rw [hf] at he
        simp at he
        simp [he, Event.isRemoteResolve, Event.isDbGet]
      | ok fill =>
        rw [hf] at he
        simp at he
        simp [he, Event.isRemoteResolve, Event.isDbGet]
    · intro fill hf
      rw [hmain, hf]
      exact ⟨rfl, hfresh fill⟩
    · intro code msg hf
      rw [hmain, hf]

theorem c7_local_slug_resolves_locally_witness :
    is_background_name_local (slugOf "ff0000") = true ∧
    get_background_fill "ff0000" = .ok ⟨16711680, 16711680, 0⟩ ∧
    search_background ({ useFileDb := true } : BgState) "ff0000" 2
      = ((add_fill_background { useFileDb := true } ⟨16711680, 16711680, 0⟩).2,
         ((add_fill_background { useFileDb := true } ⟨16711680, 16711680, 0⟩).1,
          .fill ⟨16711680, 16711680, 0⟩),
         [.resolveOk 2]) ∧
    (add_fill_background ({ useFileDb := true } : BgState)
        ⟨16711680, 16711680, 0⟩).1 = 1 := by
  refine ⟨by decide, by rfl, ?_, ?_⟩
  · have h := c7_local_slug_resolves_locally ({ useFileDb := true } : BgState)
      "ff0000" 2 (by intro p hp; simp at hp) (by decide)
    exact ((h.2.2 (by decide)).1 ⟨16711680, 16711680, 0⟩ (by rfl)).1
  · have h := c7_local_slug_resolves_locally ({ useFileDb := true } : BgState)
      "ff0000" 2 (by intro p hp; simp at hp) (by decide)
    have h2 := ((h.2.2 (by decide)).1 ⟨16711680, 16711680, 0⟩ (by rfl)).2
    simpa using h2

/-- C8 counterexample: with the file database disabled, empty caches and no
request outstanding, two `search_background` calls for the same
non-locally-synthesizable slug each issue their own remote resolve request —
two remote requests where the claim allows exactly one. -/
theorem c8_counterexample :
    is_background_name_local "abcdefghijklmn" = false ∧
    (BgState.mk [] [] [] [] [] [] [] []
        0 0 (.fill {}) (.fill {}) 0 [] false false).beingLoadedFromDatabaseBackgrounds
      = [] ∧
    (search_background (BgState.mk [] [] [] [] [] [] [] []
        0 0 (.fill {}) (.fill {}) 0 [] false false) "abcdefghijklmn" 1).2.2
      = [.remoteGetBackground "abcdefghijklmn" 1] ∧
    (search_background
        (search_background (BgState.mk [] [] [] [] [] [] [] []
          0 0 (.fill {}) (.fill {}) 0 [] false false) "abcdefghijklmn" 1).1
        "abcdefghijklmn" 2).2.2
      = [.remoteGetBackground "abcdefghijklmn" 2] ∧
    ((search_background (BgState.mk [] [] [] [] [] [] [] []
        0 0 (.fill {}) (.fill {}) 0 [] false false) "abcdefghijklmn" 1).2.2 ++
     (search_background
        (search_background (BgState.mk [] [] [] [] [] [] [] []
          0 0 (.fill {}) (.fill {}) 0 [] false false) "abcdefghijklmn" 1).1
        "abcdefghijklmn" 2).2.2).countP Event.isRemoteResolve = 2 := by
  refine ⟨by decide, rfl, rfl, rfl, rfl⟩

/-- Run one `search_background` call per queued caller, in order, collecting
the emitted events. -/
def searchMany (s : BgState) (name : String) (pids : List Nat) :
    BgState × List Event :=
  match pids with
  | [] => (s, [])
  | p :: rest =>
      let r := search_background s name p
      let r' := searchMany r.1 name rest
      (r'.1, r.2.2 ++ r'.2)

theorem search_background_db_step (t : BgState) (name : String) (p : Nat)
    (hloc : is_background_name_local (slugOf name) = false)
    (hmap : alookup t.nameToBackgroundId (slugOf name) = none)
    (hdb : t.useFileDb = true)
    (hnl : slugOf name ∉ t.loadedFromDatabaseBackgrounds) :
    search_background t name p
      = ({ t with beingLoadedFromDatabaseBackgrounds := aset t.beingLoadedFromDatabaseBackgrounds (slugOf name) (((alookup t.beingLoadedFromDatabaseBackgrounds (slugOf name)).getD []) ++ [p]) },
         (0, .fill {}),
         if (alookup t.beingLoadedFromDatabaseBackgrounds (slugOf name)).getD [] = []
         then [.dbGet (slugOf name)] else []) := by
  have hslug : slugOf name ≠ "" := by
    intro hc
    rw [hc] at hloc
    exact absurd hloc (by decide)
  simp only [search_background, hmap]
  rw [if_neg hslug, if_neg (by rw [hloc]; exact Bool.false_ne_true),
      if_pos ⟨hdb, hnl⟩]

/-- C8 (amended): the single-outstanding-request de-duplication applies to
the durable by-name cache stage, not to the remote resolve request.  With the
file database enabled, the slug neither cached in memory nor yet loaded, and
no load outstanding, N concurrent `search_background` calls queue all N
waiters under the slug and emit exactly one database lookup — and no remote
request; when the database load completes (outside shutdown), every queued
waiter receives the same successful outcome.  (When the database stage is
bypassed, each call issues its own remote request — see the counterexample.) -/
theorem c8_db_load_deduplicated (s : BgState) (name : String) (pids : List Nat)
    (hloc : is_background_name_local (slugOf name) = false)
    (hmap : alookup s.nameToBackgroundId (slugOf name) = none)
    (hdb : s.useFileDb = true)
    (hnl : slugOf name ∉ s.loadedFromDatabaseBackgrounds)
    (hout : alookup s.beingLoadedFromDatabaseBackgrounds (slugOf name) = none)
    (hne : pids ≠ []) :
    (searchMany s name pids).2 = [.dbGet (slugOf name)] ∧
    alookup (searchMany s name pids).1.beingLoadedFromDatabaseBackgrounds
        (slugOf name) = some pids ∧
    (∀ (t : BgState) (q : List Nat) (value : List StoreTok),
      t.closeFlag = false →
      alookup t.beingLoadedFromDatabaseBackgrounds (slugOf name) = some q →
      (on_load_background_from_database t (slugOf name) value).2
        = q.map Event.resolveOk) := by
  have key : ∀ (rest : List Nat) (t : BgState) (q : List Nat),
      t.useFileDb = true →
      slugOf name ∉ t.loadedFromDatabaseBackgrounds →
      alookup t.nameToBackgroundId (slugOf name) = none →
      alookup t.beingLoadedFromDatabaseBackgrounds (slugOf name) = some q →
      q ≠ [] →
      (searchMany t name rest).2 = [] ∧
      alookup (searchMany t name rest).1.beingLoadedFromDatabaseBackgrounds
          (slugOf name) = some (q ++ rest) := by
    intro rest
    induction rest with
    | nil =>
      intro t q _ _ _ hq _
      exact ⟨rfl, by simpa using hq⟩
    | cons p rest2 ih =>
      intro t q h1 h2 h3 hq hqne
      have hstep := search_background_db_step t name p hloc h3 h1 h2
      rw [hq] at hstep
      simp only [Option.getD_some] at hstep
      have hset : alookup (aset t.beingLoadedFromDatabaseBackgrounds (slugOf name) (q ++ [p])) (slugOf name) = some (q ++ [p]) := alookup_aset_self _ _ _
      have happ := ih ({ t with beingLoadedFromDatabaseBackgrounds := aset t.beingLoadedFromDatabaseBackgrounds (slugOf name) (q ++ [p]) }) (q ++ [p]) h1 h2 h3 hset (by simp)
      refine ⟨?_, ?_⟩
      · simp only [searchMany, hstep]
        rw [if_neg hqne]
        simpa using happ.1
      · simp only [searchMany, hstep]
        rw [happ.2]
        simp
  cases pids with
  | nil => exact absurd rfl hne
  | cons p rest =>
    have hstep := search_background_db_step s name p hloc hmap hdb hnl
    rw [hout] at hstep
    simp only [Option.getD_none, List.nil_append, eq_self_iff_true, if_true] at hstep
    have hset : alookup (aset s.beingLoadedFromDatabaseBackgrounds (slugOf name) [p]) (slugOf name) = some [p] := alookup_aset_self _ _ _
    have happ := key rest ({ s with beingLoadedFromDatabaseBackgrounds := aset s.beingLoadedFromDatabaseBackgrounds (slugOf name) [p] }) [p] hdb hnl hmap hset (by simp)
    refine ⟨?_, ?_, ?_⟩
    · simp only [searchMany, hstep, happ.1, List.append_nil]
    · simp only [searchMany, hstep]
      rw [happ.2]
      rfl
    · intro t q value hclose hq
      simp only [on_load_background_from_database, hq]
      rw [if_neg (by rw [hclose]; exact Bool.false_ne_true)]

theorem c8_db_load_deduplicated_witness :
    (searchMany ({ useFileDb := true } : BgState) "abcdefghijklmn" [1, 2, 3]).2
      = [.dbGet "abcdefghijklmn"] ∧
    alookup (searchMany ({ useFileDb := true } : BgState) "abcdefghijklmn"
        [1, 2, 3]).1.beingLoadedFromDatabaseBackgrounds "abcdefghijklmn"
      = some [1, 2, 3] := by
  have h := c8_db_load_deduplicated ({ useFileDb := true } : BgState)
    "abcdefghijklmn" [1, 2, 3] (by decide) rfl rfl (by decide) rfl (by decide)
  have hsl : slugOf "abcdefghijklmn" = "abcdefghijklmn" := rfl
  rw [hsl] at h
  exact ⟨h.1, h.2.1⟩

/-! ### Allocator invariants for C2 -/

/-- The persisted "max_bg_id" entry agrees with the in-memory counter. -/
def AllocInv (s : BgState) : Prop :=
  pmcGetInt s "max_bg_id" = s.maxLocalBackgroundId

/-- What one trace step may do to the counter: never lower it, and return
strictly increasing identifiers all from the half-open window it spans. -/
def StepBound (s s' : BgState) (ids : List Int) : Prop :=
  s.maxLocalBackgroundId ≤ s'.maxLocalBackgroundId ∧
  List.Pairwise (· < ·) ids ∧
  ∀ i ∈ ids, s.maxLocalBackgroundId < i ∧ i ≤ s'.maxLocalBackgroundId

theorem StepBound.trans_append {s1 s2 s3 : BgState} {ids1 ids2 : List Int}
    (h : StepBound s1 s2 ids1) (h' : StepBound s2 s3 ids2) :
    StepBound s1 s3 (ids1 ++ ids2) := by
  obtain ⟨hm, hp, hb⟩ := h
  obtain ⟨hm', hp', hb'⟩ := h'
  refine ⟨hm.trans hm', ?_, ?_⟩
  · rw [List.pairwise_append]
    refine ⟨hp, hp', ?_⟩
    intro a ha b hb2
    exact lt_of_le_of_lt (hb a ha).2 (hb' b hb2).1
  · intro i hi
    rcases List.mem_append.mp hi with hi | hi
    · exact ⟨(hb i hi).1, (hb i hi).2.trans hm'⟩
    · exact ⟨lt_of_le_of_lt hm (hb' i hi).1, (hb' i hi).2⟩

theorem StepBound.refl_nil (s : BgState) : StepBound s s [] :=
  ⟨le_refl _, List.Pairwise.nil, by intro i hi; cases hi⟩

theorem pmcGetInt_congr {s t : BgState} (h : s.binlogPmc = t.binlogPmc)
    (key : String) : pmcGetInt s key = pmcGetInt t key := by
  simp [pmcGetInt, h]

theorem get_next_alloc (s : BgState) :
    (get_next_local_background_id s).1 = s.maxLocalBackgroundId + 1 ∧
    (get_next_local_background_id s).2.maxLocalBackgroundId
      = s.maxLocalBackgroundId + 1 ∧
    pmcGetInt (get_next_local_background_id s).2 "max_bg_id"
      = s.maxLocalBackgroundId + 1 := by
  refine ⟨rfl, rfl, ?_⟩
  simp [get_next_local_background_id, set_max_local_background_id, pmcGetInt,
    alookup_aset_self]

theorem save_background_id_alloc (s : BgState) (forDarkTheme : Bool) :
    (save_background_id s forDarkTheme).maxLocalBackgroundId
      = s.maxLocalBackgroundId ∧
    pmcGetInt (save_background_id s forDarkTheme) "max_bg_id"
      = pmcGetInt s "max_bg_id" := by
  have hkey : get_background_database_key forDarkTheme ≠ "max_bg_id" := by
    cases forDarkTheme <;> decide
  dsimp only [save_background_id]
  split_ifs
  · cases h : alookup s.backgrounds (getSlotId s forDarkTheme)
    · exact ⟨rfl, rfl⟩
    · refine ⟨rfl, ?_⟩
      simp only [pmcGetInt]
      rw [alookup_aset_ne _ _ _ _ hkey]
  · refine ⟨rfl, ?_⟩
    simp only [pmcGetInt]
    rw [alookup_aerase_ne _ _ _ hkey]

theorem setSlot_alloc (s : BgState) (forDarkTheme : Bool) (backgroundId : Int)
    (type : BackgroundType) :
    (setSlot s forDarkTheme backgroundId type).maxLocalBackgroundId
      = s.maxLocalBackgroundId ∧
    (setSlot s forDarkTheme backgroundId type).binlogPmc = s.binlogPmc := by
  cases forDarkTheme <;> exact ⟨rfl, rfl⟩

theorem startUpFixMax_alloc (s : BgState)
    (record : Option (Background × BackgroundType)) (hInv : AllocInv s) :
    AllocInv (startUpFixMax s record) ∧
    s.maxLocalBackgroundId ≤ (startUpFixMax s record).maxLocalBackgroundId ∧
    (∀ bg t, record = some (bg, t) → bg.hasNewLocalId = true →
      isLocalId bg.id = true → bg.type.has_file = false →
      bg.id ≤ (startUpFixMax s record).maxLocalBackgroundId) := by
  cases record with
  | none =>
    refine ⟨hInv, le_refl _, ?_⟩
    intro bg t h
    cases h
  | some bt =>
    rcases bt with ⟨bg, t⟩
    dsimp only [startUpFixMax]
    split_ifs with hc
    · refine ⟨?_, le_of_lt hc.2.2.2, ?_⟩
      · simp [AllocInv, set_max_local_background_id, pmcGetInt, alookup_aset_self]
      · intro bg' t' heq _ _ _
        cases heq
        exact le_refl _
    · refine ⟨hInv, le_refl _, ?_⟩
      intro bg' t' heq h1 h2 h3
      cases heq
      have hnotgt : ¬ (bg.id > s.maxLocalBackgroundId) := fun hgt =>
        hc ⟨h1, h2, by simp [h3], hgt⟩
      exact not_lt.mp hnotgt

theorem allocInv_save (t : BgState) (forDarkTheme : Bool) (h : AllocInv t) :
    AllocInv (save_background_id t forDarkTheme) ∧
    (save_background_id t forDarkTheme).maxLocalBackgroundId
      = t.maxLocalBackgroundId := by
  have hsv := save_background_id_alloc t forDarkTheme
  refine ⟨?_, hsv.1⟩
  unfold AllocInv
  rw [hsv.1, hsv.2]
  exact h

theorem allocInv_addSlot (t : BgState) (forDarkTheme : Bool) (bg1 : Background)
    (setType : BackgroundType) (h : AllocInv t) :
    AllocInv (add_background (setSlot t forDarkTheme bg1.id setType) bg1) ∧
    (add_background (setSlot t forDarkTheme bg1.id setType)
        bg1).maxLocalBackgroundId = t.maxLocalBackgroundId := by
  have hset := setSlot_alloc t forDarkTheme bg1.id setType
  have hadd := add_background_frame (setSlot t forDarkTheme bg1.id setType) bg1
  have hmax : (add_background (setSlot t forDarkTheme bg1.id setType)
      bg1).maxLocalBackgroundId = t.maxLocalBackgroundId := by
    rw [hadd.2.2.2.2.2.2.2.2.1, hset.1]
  have hpmc : (add_background (setSlot t forDarkTheme bg1.id setType)
      bg1).binlogPmc = t.binlogPmc := by
    rw [hadd.2.2.2.2.2.2.2.2.2.1, hset.2]
  refine ⟨?_, hmax⟩
  unfold AllocInv
  rw [pmcGetInt_congr hpmc, hmax]
  exact h

theorem startUpInstallSlot_alloc (s : BgState) (forDarkTheme : Bool)
    (record : Option (Background × BackgroundType)) (hInv : AllocInv s) :
    AllocInv (startUpInstallSlot s forDarkTheme record).1 ∧
    StepBound s (startUpInstallSlot s forDarkTheme record).1
      (startUpInstallSlot s forDarkTheme record).2.1 := by
  cases record with
  | none => exact ⟨hInv, StepBound.refl_nil s⟩
  | some bt =>
    rcases bt with ⟨bg, setType⟩
    dsimp only [startUpInstallSlot]
    by_cases hr : (!bg.hasNewLocalId && !bg.type.has_file) = true
    · simp only [if_pos hr, hr, Bool.true_or, if_true]
      have hnext := get_next_alloc s
      have hInv1 : AllocInv (get_next_local_background_id s).2 := by
        unfold AllocInv
        rw [hnext.2.2, hnext.2.1]
      have hfin : ∀ t2 : BgState, AllocInv t2 →
          t2.maxLocalBackgroundId = s.maxLocalBackgroundId + 1 →
          AllocInv (save_background_id t2 forDarkTheme) ∧
          StepBound s (save_background_id t2 forDarkTheme)
            [(get_next_local_background_id s).1] := by
        intro t2 h2 hmax2
        obtain ⟨ha, hb⟩ := allocInv_save t2 forDarkTheme h2
        refine ⟨ha, ?_, List.pairwise_singleton _ _, ?_⟩
        · rw [hb, hmax2]
          exact le_of_lt (lt_add_one _)
        · intro i hi
          simp only [List.mem_singleton] at hi
          subst hi
          rw [hb, hmax2, hnext.1]
          exact ⟨lt_add_one _, le_refl _⟩
      split_ifs with hm
      · exact hfin _ hInv1 hnext.2.1
      · obtain ⟨ha, hb⟩ := allocInv_addSlot (get_next_local_background_id s).2
          forDarkTheme
          { bg with hasNewLocalId := true, id := (get_next_local_background_id s).1 }
          setType hInv1
        exact hfin _ ha (hb.trans hnext.2.1)
    · simp only [if_neg hr]
      have hrf : (!bg.hasNewLocalId && !bg.type.has_file) = false := by
        simpa using hr
      rw [hrf, Bool.false_or]
      split_ifs with hm
      · obtain ⟨ha, hb⟩ := allocInv_save s forDarkTheme hInv
        refine ⟨ha, le_of_eq hb.symm, List.Pairwise.nil, ?_⟩
        intro i hi
        cases hi
      · obtain ⟨ha, hb⟩ := allocInv_addSlot s forDarkTheme bg setType hInv
        refine ⟨ha, le_of_eq hb.symm, List.Pairwise.nil, ?_⟩
        intro i hi
        cases hi

theorem start_up_alloc (s : BgState) :
    AllocInv (start_up s).1 ∧
    pmcGetInt s "max_bg_id" ≤ (start_up s).1.maxLocalBackgroundId ∧
    List.Pairwise (· < ·) (start_up s).2.1 ∧
    (∀ i ∈ (start_up s).2.1,
      pmcGetInt s "max_bg_id" < i ∧ i ≤ (start_up s).1.maxLocalBackgroundId) ∧
    (∀ (forDarkTheme : Bool) (bg : Background) (t : BackgroundType),
      readSlotRecord s forDarkTheme = some (bg, t) → bg.hasNewLocalId = true →
      isLocalId bg.id = true → bg.type.has_file = false →
      bg.id ≤ (start_up s).1.maxLocalBackgroundId) := by
  have hInv0 : AllocInv ({ s with maxLocalBackgroundId := pmcGetInt s "max_bg_id" } : BgState) := rfl
  have hrec : ∀ forDarkTheme,
      readSlotRecord ({ s with maxLocalBackgroundId := pmcGetInt s "max_bg_id" } : BgState) forDarkTheme
        = readSlotRecord s forDarkTheme := fun _ => rfl
  obtain ⟨hi1, hm1, hb1⟩ := startUpFixMax_alloc
    ({ s with maxLocalBackgroundId := pmcGetInt s "max_bg_id" } : BgState)
    (readSlotRecord ({ s with maxLocalBackgroundId := pmcGetInt s "max_bg_id" } : BgState) false) hInv0
  obtain ⟨hi2, hm2, hb2⟩ := startUpFixMax_alloc _
    (readSlotRecord ({ s with maxLocalBackgroundId := pmcGetInt s "max_bg_id" } : BgState) true) hi1
  obtain ⟨hi3, hsb3⟩ := startUpInstallSlot_alloc _ false
    (readSlotRecord ({ s with maxLocalBackgroundId := pmcGetInt s "max_bg_id" } : BgState) false) hi2
  obtain ⟨hi4, hsb4⟩ := startUpInstallSlot_alloc _ true
    (readSlotRecord ({ s with maxLocalBackgroundId := pmcGetInt s "max_bg_id" } : BgState) true) hi3
  have hsbAll := ((StepBound.trans_append
      (⟨hm1, List.Pairwise.nil, by intro i hi; cases hi⟩ : StepBound _ _ [])
      (⟨hm2, List.Pairwise.nil, by intro i hi; cases hi⟩ : StepBound _ _ [])).trans_append
      hsb3).trans_append hsb4
  simp only [List.nil_append] at hsbAll
  refine ⟨hi4, ?_, ?_, ?_, ?_⟩
  · exact hsbAll.1
  · exact hsbAll.2.1
  · intro i hi
    exact hsbAll.2.2 i hi
  · intro forDarkTheme bg t hread hn hl hf
    cases forDarkTheme with
    | false =>
      have := hb1 bg t (by rw [hrec false] at *; exact hread) hn hl hf
      exact this.trans (hm2.trans (hsb3.1.trans hsb4.1))
    | true =>
      have := hb2 bg t (by rw [hrec true] at *; exact hread) hn hl hf
      exact this.trans (hsb3.1.trans hsb4.1)

theorem runAllocOp_alloc (s : BgState) (op : AllocOp) (hInv : AllocInv s) :
    AllocInv (runAllocOp s op).1 ∧
    StepBound s (runAllocOp s op).1 (runAllocOp s op).2 := by
  cases op with
  | alloc =>
    dsimp only [runAllocOp]
    have h := get_next_alloc s
    constructor
    · unfold AllocInv
      rw [h.2.2, h.2.1]
    · refine ⟨?_, List.pairwise_singleton _ _, ?_⟩
      · rw [h.2.1]
        exact le_of_lt (lt_add_one _)
      · intro i hi
        simp only [runAllocOp, List.mem_singleton] at hi
        subst hi
        rw [h.1, h.2.1]
        exact ⟨lt_add_one _, le_refl _⟩
  | restart =>
    have h := start_up_alloc (restartState s)
    have hpmc : pmcGetInt (restartState s) "max_bg_id" = s.maxLocalBackgroundId := by
      rw [← hInv]
      rfl
    rw [hpmc] at h
    exact ⟨h.1, h.2.1, h.2.2.1, h.2.2.2.1⟩

theorem runAllocOps_alloc (ops : List AllocOp) (s : BgState) (hInv : AllocInv s) :
    AllocInv (runAllocOps s ops).1 ∧
    StepBound s (runAllocOps s ops).1 (runAllocOps s ops).2 := by
  induction ops generalizing s with
  | nil => exact ⟨hInv, StepBound.refl_nil s⟩
  | cons op ops ih =>
    obtain ⟨h1, hb1⟩ := runAllocOp_alloc s op hInv
    obtain ⟨h2, hb2⟩ := ih (runAllocOp s op).1 h1
    exact ⟨h2, hb1.trans_append hb2⟩

/-- C2: every `get_next_local_background_id` call returns the successor of
the current counter and persists it under "max_bg_id" before handing it out;
along any trace of allocations and restarts (a restart reloads the persisted
counter and runs the `start_up` scan, which only ever raises the counter —
past, in particular, every locally-allocated non-file-backed identifier found
in a stored selection record), the returned identifiers are strictly
increasing, hence no identifier is ever returned twice. -/
theorem c2_local_id_allocator_monotonic (s : BgState) (ops : List AllocOp)
    (hInv : pmcGetInt s "max_bg_id" = s.maxLocalBackgroundId) :
    ((get_next_local_background_id s).1 = s.maxLocalBackgroundId + 1 ∧
     (get_next_local_background_id s).2.maxLocalBackgroundId
       = (get_next_local_background_id s).1 ∧
     pmcGetInt (get_next_local_background_id s).2 "max_bg_id"
       = (get_next_local_background_id s).1) ∧
    List.Pairwise (· < ·) (runAllocOps s ops).2 ∧
    (runAllocOps s ops).2.Nodup ∧
    (∀ (forDarkTheme : Bool) (bg : Background) (t : BackgroundType),
      readSlotRecord (restartState s) forDarkTheme = some (bg, t) →
      bg.hasNewLocalId = true → isLocalId bg.id = true →
      bg.type.has_file = false →
      bg.id ≤ (runAllocOp s .restart).1.maxLocalBackgroundId) := by
  obtain ⟨hInvF, hsb⟩ := runAllocOps_alloc ops s hInv
  have hn := get_next_alloc s
  refine ⟨⟨hn.1, ?_, ?_⟩, hsb.2.1, ?_, ?_⟩
  · rw [hn.2.1, hn.1]
  · rw [hn.2.2, hn.1]
  · exact hsb.2.1.imp (fun h => LT.lt.ne h)
  · intro forDarkTheme bg t hread hnw hl hf
    have h := start_up_alloc (restartState s)
    exact h.2.2.2.2 forDarkTheme bg t hread hnw hl hf

theorem c2_local_id_allocator_monotonic_witness :
    pmcGetInt ({} : BgState) "max_bg_id" = ({} : BgState).maxLocalBackgroundId ∧
    (runAllocOps ({} : BgState) [.alloc, .restart, .alloc]).2 = [1, 2] ∧
    (runAllocOps ({} : BgState) [.alloc, .restart, .alloc]).2.Nodup := by
  refine ⟨rfl, by decide, ?_⟩
  exact (c2_local_id_allocator_monotonic {} [.alloc, .restart, .alloc] rfl).2.2.1

theorem c4_set_selection_idempotent_witness :
    ¬ ((1 : Int) = getSlotId ({} : BgState) false ∧
        getSlotType ({} : BgState) false = .fill ⟨1, 2, 3⟩) ∧
    (set_background_id ({} : BgState) 1 (.fill ⟨1, 2, 3⟩) false).2
      = [.persistSelection false, .updateSelected false] := by
  refine ⟨by decide, ?_⟩
  exact ((c4_set_selection_idempotent {} 1 (.fill ⟨1, 2, 3⟩) false).2 (by decide)).1

end BackgroundSpec
